import Mathlib

/-!
Shallow embedding of the `g` HTML-building library (package `g`, file
`html.go` together with the entry point in `render.go`).

Strings are modelled as Lean `String` (sequences of Unicode codepoints);
where the Go code indexes raw bytes (`s[0]`, `s[len(s)-1]`) we compute the
UTF-8 encoding explicitly.  Go functions returning `(string, error)` are
modelled as `Except RenderError String`: every error return in the source
pairs the error with the empty string, so `.error e` stands for `("", e)`
and `.ok s` for `(s, nil)`.
-/

namespace G

/-- Go `unicode.IsSpace`: '\t', '\n', '\v', '\f', '\r', ' ', U+0085, U+00A0,
plus the Unicode White_Space property (U+1680, U+2000–U+200A, U+2028,
U+2029, U+202F, U+205F, U+3000). -/
def isSpace (c : Char) : Bool :=
  c.val = 0x09 || c.val = 0x0A || c.val = 0x0B || c.val = 0x0C || c.val = 0x0D ||
  c.val = 0x20 || c.val = 0x85 || c.val = 0xA0 || c.val = 0x1680 ||
  (0x2000 ≤ c.val && c.val ≤ 0x200A) ||
  c.val = 0x2028 || c.val = 0x2029 || c.val = 0x202F || c.val = 0x205F || c.val = 0x3000

/-- The UTF-8 encoding of one codepoint, as byte values. -/
def charUtf8 (c : Char) : List Nat :=
  let n := c.toNat
  if n < 0x80 then [n]
  else if n < 0x800 then
    [0xC0 + n / 64, 0x80 + n % 64]
  else if n < 0x10000 then
    [0xE0 + n / 4096, 0x80 + n / 64 % 64, 0x80 + n % 64]
  else
    [0xF0 + n / 262144, 0x80 + n / 4096 % 64, 0x80 + n / 64 % 64, 0x80 + n % 64]

/-- The UTF-8 bytes of a string (a Go `string` is exactly this byte slice). -/
def utf8Bytes (s : String) : List Nat :=
  s.data.flatMap charUtf8

/-- Go `strings.FieldsFunc(·, unicode.IsSpace)` on the codepoint list:
the maximal runs of non-whitespace codepoints, empties dropped. -/
def fieldsFunc : List Char → List (List Char)
  | [] => []
  | c :: cs =>
    if isSpace c then fieldsFunc cs
    else
      match cs, fieldsFunc cs with
      | [], _ => [[c]]
      | d :: _, rest =>
        if isSpace d then [c] :: rest
        else
          match rest with
          | [] => [[c]]
          | f :: fs => (c :: f) :: fs

/-- Go `strings.Join(·, " ")` on codepoint lists. -/
def joinSpace : List (List Char) → List Char
  | [] => []
  | [f] => f
  | f :: g :: fs => f ++ ' ' :: joinSpace (g :: fs)

/-- Go `html.EscapeString` acting on one codepoint:
`&`→`&amp;`, `'`→`&#39;`, `<`→`&lt;`, `>`→`&gt;`, `"`→`&#34;`. -/
def escChar (c : Char) : List Char :=
  if c = '&' then ['&', 'a', 'm', 'p', ';']
  else if c = '\'' then ['&', '#', '3', '9', ';']
  else if c = '<' then ['&', 'l', 't', ';']
  else if c = '>' then ['&', 'g', 't', ';']
  else if c = '"' then ['&', '#', '3', '4', ';']
  else [c]

/-- Go `html.EscapeString` on a codepoint list. -/
def escapeList (l : List Char) : List Char :=
  l.flatMap escChar

/-- Go `html.EscapeString`. -/
def escapeString (s : String) : String :=
  ⟨escapeList s.data⟩

/-- Method `Text.Render` from `html.go`.  The boundary tests read single BYTES of
the string (`rune(s[0])`, `rune(s[len(s)-1])`) and `len(s) > 1` counts
bytes, exactly as in the source; the collapse step works on codepoints. -/
def textRenderStr (s : String) : String :=
  if s = "" then ""
  else
    let startsWithSpace := isSpace (Char.ofNat ((utf8Bytes s).headD 0))
    let endsWithSpace :=
      decide ((utf8Bytes s).length > 1) && isSpace (Char.ofNat ((utf8Bytes s).getLastD 0))
    let collapsed := joinSpace (fieldsFunc s.data)
    let withStart := if startsWithSpace then ' ' :: collapsed else collapsed
    let withEnd := if endsWithSpace then withStart ++ [' '] else withStart
    (⟨escapeList withEnd⟩ : String)

/-- Errors surfaced by rendering, one constructor per distinct
`fmt.Errorf` in `renderAttrs` (the `invalidAttributeType` constructor keeps
the `%T` type name and the key that the message interpolates). -/
inductive RenderError where
  | emptyAttributeKey : RenderError
  | nilAttributeValue (key : String) : RenderError
  | invalidAttributeType (typeName : String) (key : String) : RenderError
deriving DecidableEq, Repr

/-- Method `Text.Render` with its Go signature `(string, error)`; the body never
produces a non-nil error. -/
def Text.render (s : String) : Except RenderError String :=
  .ok (textRenderStr s)

/-- A Go `any` attribute value: a string, a bool, untyped `nil`, or a value
of any other dynamic type (carrying the `%T` type name). -/
inductive AttrValue where
  | str (s : String) : AttrValue
  | bool (b : Bool) : AttrValue
  | nil : AttrValue
  | other (typeName : String) : AttrValue
deriving DecidableEq, Repr

/-- A `KV` map, modelled as its entry list.  A Go map has distinct keys and
an unspecified iteration order; `renderAttrs` sorts the entries, so with
distinct keys the list order is immaterial (proved below). -/
abbrev KV := List (String × AttrValue)

/-- Go `strings.TrimSpace` (leading and trailing `unicode.IsSpace` runs
removed, per codepoint). -/
def trimSpace (s : String) : String :=
  ⟨((s.data.dropWhile isSpace).reverse.dropWhile isSpace).reverse⟩

/-- Byte/codepoint `≤` on codepoint lists (UTF-8 byte order and codepoint
order agree on valid encodings, so this models Go `strings.Compare ≤ 0`). -/
def strLeAux : List Char → List Char → Bool
  | [], _ => true
  | _ :: _, [] => false
  | c :: cs, d :: ds =>
    if c < d then true
    else if d < c then false
    else strLeAux cs ds

/-- Go `strings.Compare(a, b) ≤ 0` on strings. -/
def strLe (a b : String) : Bool :=
  strLeAux a.data b.data

/-- Key order used by `slices.SortFunc(attrSlice, strings.Compare on keys)`. -/
def keyLe (a b : String × AttrValue) : Bool :=
  strLe a.1 b.1

/-- Insert into a `keyLe`-sorted list, keeping it sorted. -/
def insertSorted (x : String × AttrValue) : KV → KV
  | [] => [x]
  | h :: t => if keyLe x h then x :: h :: t else h :: insertSorted x t

/-- The sort performed by `renderAttrs` before emitting attributes.  The Go
code uses an unstable comparison sort; on the distinct keys of a map every
comparison sort with this comparator yields the same (unique) sorted list,
which insertion sort computes. -/
def sortAttrs (l : KV) : KV :=
  l.foldr insertSorted []

/-- The attribute loop of `Element.renderAttrs` (html.go): for each entry of
the already-sorted list, trim the key, reject empty keys, nil values and
non-string/bool values, and otherwise emit ` key="escaped"` for strings and
` key` for true booleans (false booleans emit nothing). -/
def renderAttrsLoop : KV → Except RenderError String
  | [] => .ok ""
  | (key, value) :: rest =>
    let k := trimSpace key
    if k = "" then .error .emptyAttributeKey
    else
      match value with
      | .nil => .error (.nilAttributeValue k)
      | .str v =>
        (renderAttrsLoop rest).map (fun r => " " ++ k ++ "=\"" ++ escapeString v ++ "\"" ++ r)
      | .bool b =>
        (renderAttrsLoop rest).map (fun r => (if b then " " ++ k else "") ++ r)
      | .other t => .error (.invalidAttributeType t k)

/-- Method `Element.renderAttrs`: collect the map entries, sort by key, then run
the validation/emission loop. -/
def renderAttrs (attrs : KV) : Except RenderError String :=
  renderAttrsLoop (sortAttrs attrs)

/-- The `Node` interface with its two implementations: `Text` and
`Element` (tag, void flag, attributes, children), as in `html.go`. -/
inductive Node where
  | text (s : String) : Node
  | elem (tag : String) (isVoid : Bool) (attrs : KV) (children : List Node) : Node
deriving Repr

mutual

/-- Method `Node.Render`: `Text.Render` for text nodes and `Element.Render`
(html.go) for elements.  The element branch mirrors the source exactly:
an empty tag renders only the children (propagating their error); otherwise
the opening tag with attributes is built (attribute errors propagate), a
void element stops after the opening tag, and — exactly as the source's
`return "", nil` — a child error under a non-empty tag yields a SUCCESSFUL
result carrying the empty string. -/
def Node.render : Node → Except RenderError String
  | .text s => Text.render s
  | .elem tag isVoid attrs children =>
    if tag = "" then
      match renderChildren children with
      | .error e => .error e
      | .ok s => .ok s
    else
      match renderAttrs attrs with
      | .error e => .error e
      | .ok a =>
        if isVoid then .ok ("<" ++ tag ++ a ++ ">")
        else
          match renderChildren children with
          | .error _ => .ok ""
          | .ok body => .ok ("<" ++ tag ++ a ++ ">" ++ body ++ "</" ++ tag ++ ">")

/-- Method `Element.renderChildren`: render each child in sequence order and
concatenate, stopping at the first child error. -/
def renderChildren : List Node → Except RenderError String
  | [] => .ok ""
  | n :: ns =>
    match Node.render n with
    | .error e => .error e
    | .ok s =>
      match renderChildren ns with
      | .error e => .error e
      | .ok rest => .ok (s ++ rest)

end

/-- Method `Element.Add` (html.go): append the new children unless the element is
void, and return the element for chaining.  On a `Text` node (which has no
`Add` in the source) this is the identity. -/
def Node.add : Node → List Node → Node
  | .text s, _ => .text s
  | .elem tag isVoid attrs children, newChildren =>
    if isVoid then .elem tag isVoid attrs children
    else .elem tag isVoid attrs (children ++ newChildren)

/-- The free function `Render(writer, node)` from `render.go`, over an
abstract sink: `write` consumes the sink state and a string and returns the
new state with an optional write error.  On a render error nothing is
written and the render error is returned; on success the whole string is
written once and any write error is returned unchanged (`Sum.inr`, not
wrapped into a `RenderError`). -/
def renderToWriter {σ ε : Type} (write : σ → String → σ × Option ε) (st : σ)
    (node : Node) : σ × Option (RenderError ⊕ ε) :=
  match Node.render node with
  | .error e => (st, some (Sum.inl e))
  | .ok s =>
    let r := write st s
    (r.1, r.2.map Sum.inr)

/-- Discriminator for the `InvalidAttributeType` error kind. -/
def RenderError.isInvalidType : RenderError → Bool
  | .invalidAttributeType _ _ => true
  | _ => false

/-- An attribute value of one of the two permitted dynamic types. -/
def valueOk : AttrValue → Bool
  | .str _ => true
  | .bool _ => true
  | _ => false

/-! ### Facts about the byte/codepoint string order -/

theorem strLeAux_total : ∀ a b : List Char, strLeAux a b = true ∨ strLeAux b a = true
  | [], _ => Or.inl rfl
  | _ :: _, [] => Or.inr rfl
  | x :: xs, y :: ys => by
    rcases lt_trichotomy x y with h | h | h
    · left; simp [strLeAux, h]
    · subst h
      rcases strLeAux_total xs ys with ih | ih
      · left; simp [strLeAux, lt_irrefl, ih]
      · right; simp [strLeAux, lt_irrefl, ih]
    · right; simp [strLeAux, h]

theorem strLeAux_antisymm : ∀ a b : List Char,
    strLeAux a b = true → strLeAux b a = true → a = b
  | [], [], _, _ => rfl
  | [], _ :: _, _, hba => by simp [strLeAux] at hba
  | _ :: _, [], hab, _ => by simp [strLeAux] at hab
  | x :: xs, y :: ys, hab, hba => by
    rcases lt_trichotomy x y with h | h | h
    · rw [strLeAux, if_neg (lt_asymm h), if_pos h] at hba
      exact absurd hba (by decide)
    · subst h
      rw [strLeAux, if_neg (lt_irrefl x), if_neg (lt_irrefl x)] at hab hba
      rw [strLeAux_antisymm xs ys hab hba]
    · rw [strLeAux, if_neg (lt_asymm h), if_pos h] at hab
      exact absurd hab (by decide)

theorem strLeAux_trans : ∀ a b c : List Char,
    strLeAux a b = true → strLeAux b c = true → strLeAux a c = true
  | [], _, _, _, _ => rfl
  | _ :: _, [], _, hab, _ => by simp [strLeAux] at hab
  | _ :: _, _ :: _, [], _, hbc => by simp [strLeAux] at hbc
  | x :: xs, y :: ys, z :: zs, hab, hbc => by
    rcases lt_trichotomy x y with hxy | hxy | hxy
    · rcases lt_trichotomy y z with hyz | hyz | hyz
      · simp [strLeAux, lt_trans hxy hyz]
      · subst hyz; simp [strLeAux, hxy]
      · rw [strLeAux, if_neg (lt_asymm hyz), if_pos hyz] at hbc
        exact absurd hbc (by decide)
    · subst hxy
      rcases lt_trichotomy x z with hxz | hxz | hxz
      · simp [strLeAux, hxz]
      · subst hxz
        rw [strLeAux, if_neg (lt_irrefl x), if_neg (lt_irrefl x)] at hab hbc
        simp only [strLeAux, if_neg (lt_irrefl x)]
        exact strLeAux_trans xs ys zs hab hbc
      · rw [strLeAux, if_neg (lt_asymm hxz), if_pos hxz] at hbc
        exact absurd hbc (by decide)
    · rw [strLeAux, if_neg (lt_asymm hxy), if_pos hxy] at hab
      exact absurd hab (by decide)

theorem strLe_antisymm {a b : String} (hab : strLe a b = true) (hba : strLe b a = true) :
    a = b := by
  cases a; cases b
  exact congrArg String.mk (strLeAux_antisymm _ _ hab hba)

theorem keyLe_total (a b : String × AttrValue) : keyLe a b = true ∨ keyLe b a = true :=
  strLeAux_total _ _

theorem keyLe_trans {a b c : String × AttrValue} (h1 : keyLe a b = true)
    (h2 : keyLe b c = true) : keyLe a c = true :=
  strLeAux_trans _ _ _ h1 h2

/-! ### The attribute sort: permutation, sortedness, uniqueness -/

theorem insertSorted_perm (x : String × AttrValue) :
    ∀ l : KV, (insertSorted x l).Perm (x :: l)
  | [] => List.Perm.refl _
  | h :: t => by
    simp only [insertSorted]
    by_cases hc : keyLe x h = true
    · rw [if_pos hc]
    · rw [if_neg hc]
      exact (List.Perm.cons h (insertSorted_perm x t)).trans (List.Perm.swap x h t)

theorem sortAttrs_perm : ∀ l : KV, (sortAttrs l).Perm l
  | [] => List.Perm.refl _
  | a :: l => by
    show (insertSorted a (sortAttrs l)).Perm (a :: l)
    exact (insertSorted_perm a (sortAttrs l)).trans (List.Perm.cons a (sortAttrs_perm l))

theorem insertSorted_sorted (x : String × AttrValue) :
    ∀ l : KV, List.Pairwise (fun a b => keyLe a b = true) l →
      List.Pairwise (fun a b => keyLe a b = true) (insertSorted x l)
  | [], _ => List.Pairwise.cons (by simp) List.Pairwise.nil
  | h :: t, hs => by
    rcases List.pairwise_cons.mp hs with ⟨hh, ht⟩
    simp only [insertSorted]
    by_cases hc : keyLe x h = true
    · rw [if_pos hc]
      refine List.Pairwise.cons ?_ hs
      intro y hy
      rcases List.mem_cons.mp hy with rfl | hy'
      · exact hc
      · exact keyLe_trans hc (hh y hy')
    · rw [if_neg hc]
      have hhx : keyLe h x = true := (keyLe_total x h).resolve_left hc
      refine List.Pairwise.cons ?_ (insertSorted_sorted x t ht)
      intro y hy
      rcases List.mem_cons.mp ((insertSorted_perm x t).mem_iff.mp hy) with rfl | hy'
      · exact hhx
      · exact hh y hy'

theorem sortAttrs_sorted : ∀ l : KV,
    List.Pairwise (fun a b => keyLe a b = true) (sortAttrs l)
  | [] => List.Pairwise.nil
  | a :: l => insertSorted_sorted a (sortAttrs l) (sortAttrs_sorted l)

/-- A `keyLe`-sorted list with pairwise-distinct keys is determined by its
multiset of entries: two sorted permutations of each other are equal. -/
theorem sorted_eq_of_perm : ∀ {l1 l2 : KV}, l1.Perm l2 →
    List.Pairwise (fun a b => keyLe a b = true) l1 →
    List.Pairwise (fun a b => keyLe a b = true) l2 →
    (l1.map Prod.fst).Nodup → l1 = l2
  | [], l2, hp, _, _, _ => hp.nil_eq
  | a :: t, [], hp, _, _, _ => absurd hp.symm.nil_eq (by simp)
  | a :: t1, b :: t2, hp, h1, h2, hnd => by
    rcases List.pairwise_cons.mp h1 with ⟨ha, ht1⟩
    rcases List.pairwise_cons.mp h2 with ⟨hb, ht2⟩
    have hab : a = b := by
      by_contra hne
      have hat2 : a ∈ t2 := by
        rcases List.mem_cons.mp (hp.mem_iff.mp (List.mem_cons_self a t1)) with h | h
        · exact absurd h hne
        · exact h
      have hbt1 : b ∈ t1 := by
        rcases List.mem_cons.mp (hp.symm.mem_iff.mp (List.mem_cons_self b t2)) with h | h
        · exact absurd h.symm hne
        · exact h
      have hkey : a.1 = b.1 := strLe_antisymm (ha b hbt1) (hb a hat2)
      have : a.1 ∈ t1.map Prod.fst := hkey ▸ List.mem_map_of_mem Prod.fst hbt1
      rw [List.map_cons, List.nodup_cons] at hnd
      exact hnd.1 this
    subst hab
    rw [List.map_cons, List.nodup_cons] at hnd
    rw [sorted_eq_of_perm hp.cons_inv ht1 ht2 hnd.2]

/-! ### Escaping and string-building lemmas -/

theorem escapeList_append (a b : List Char) :
    escapeList (a ++ b) = escapeList a ++ escapeList b :=
  List.flatMap_append a b escChar

theorem escChar_space : escChar ' ' = [' '] := rfl

theorem mkString_append (a b : List Char) : (⟨a⟩ : String) ++ ⟨b⟩ = ⟨a ++ b⟩ := rfl

theorem empty_append_str (s : String) : "" ++ s = s := by cases s; rfl

theorem str_append_empty (s : String) : s ++ "" = s := by
  cases s; exact congrArg String.mk (List.append_nil _)

theorem str_append_assoc (a b c : String) : a ++ b ++ c = a ++ (b ++ c) := by
  cases a; cases b; cases c
  exact congrArg String.mk (List.append_assoc _ _ _)

theorem space_append_mk (l : List Char) : (" " : String) ++ ⟨l⟩ = ⟨' ' :: l⟩ := rfl

theorem mk_append_space (l : List Char) : (⟨l⟩ : String) ++ " " = ⟨l ++ [' ']⟩ := rfl

/-- Method `Text.Render` on a non-empty string, with the collapse, the boundary
flags and the escaping separated: the result is the escaped collapsed core
with one space re-prepended exactly when the first BYTE of the input is
classified as whitespace, and one space re-appended exactly when the input
is more than one byte long and its last BYTE is classified as whitespace. -/
theorem textRender_eq (s : String) (h : s ≠ "") :
    Text.render s =
      .ok ((if isSpace (Char.ofNat ((utf8Bytes s).headD 0)) then " " else "")
        ++ escapeString ⟨joinSpace (fieldsFunc s.data)⟩
        ++ (if decide ((utf8Bytes s).length > 1) &&
              isSpace (Char.ofNat ((utf8Bytes s).getLastD 0)) then " " else "")) := by
  simp only [Text.render, textRenderStr, if_neg h]
  by_cases h1 : isSpace (Char.ofNat ((utf8Bytes s).headD 0)) = true
  <;> by_cases h2 : (decide ((utf8Bytes s).length > 1) &&
        isSpace (Char.ofNat ((utf8Bytes s).getLastD 0))) = true
  <;> simp only [h1, h2, if_true, if_false, Bool.not_eq_true] at *
  <;> simp [h1, h2, escapeString, escapeList_append, escapeList, empty_append_str,
        str_append_empty, mkString_append, escChar, space_append_mk, mk_append_space,
        str_append_assoc]

/-! ### Claims -/

/-- C1: the claim says a child render failure under a non-empty tag is
propagated to the caller as an error.  The code does not: `Element.Render`
(html.go line 90) executes `return "", nil` when `renderChildren` fails, so
the failure of the inner span (whose nil-valued attribute makes its own
render fail) is swallowed and the outer div renders SUCCESSFULLY with an
empty string.  This theorem evaluates the code at that failing input. -/
theorem claim_C1_childErrorSwallowed :
    Node.render (.elem "span" false [("x", AttrValue.nil)] []) =
      .error (.nilAttributeValue "x")
    ∧ Node.render (.elem "div" false []
        [.elem "span" false [("x", AttrValue.nil)] []]) = .ok "" :=
  ⟨rfl, rfl⟩

/-- C2, counterexample: a transparent wrapper (empty tag) carrying a
nil-valued attribute renders SUCCESSFULLY (to the empty concatenation of
its children), while the claim demands the `NilAttributeValue` validation
error; the same attribute under a non-empty tag does error.  In the code
the empty-tag branch of `Element.Render` returns before `renderAttrs` is
ever called, so no attribute validation happens for wrappers. -/
theorem claim_C2_counterexample :
    Node.render (.elem "" false [("x", AttrValue.nil)] []) = .ok ""
    ∧ Node.render (.elem "div" false [("x", AttrValue.nil)] []) =
        .error (.nilAttributeValue "x") :=
  ⟨rfl, rfl⟩

/-- C2, amended: for a transparent wrapper (empty tag name) `Render` skips
attribute validation entirely — whatever the attributes are, the result is
exactly the rendering of the children. -/
theorem claim_C2_amended (isVoid : Bool) (attrs : KV) (children : List Node) :
    Node.render (.elem "" isVoid attrs children) = renderChildren children := by
  simp only [Node.render, if_pos]
  cases renderChildren children <;> rfl

/-- C3, counterexample: U+00A0 (no-break space) is a whitespace codepoint,
and `" a"` therefore starts with whitespace, yet `Text.Render` does
not re-prepend a space: it classifies the FIRST BYTE (0xC2) of the UTF-8
encoding, not the first codepoint, so the claim's "any whitespace
codepoint, including multi-byte codepoints" fails. -/
theorem claim_C3_counterexample :
    isSpace ' ' = true
    ∧ Text.render " a" = .ok "a"
    ∧ Text.render " a" ≠ .ok " a" := by
  refine ⟨rfl, rfl, fun hc => ?_⟩
  rw [show Text.render " a" = Except.ok "a" from rfl] at hc
  exact absurd (Except.ok.inj hc) (by decide)

/-- C3, amended: for every non-empty input, `Text.Render` decides boundary
whitespace from the BYTES of the UTF-8 encoding: it classifies the first
byte — and, when the byte length exceeds 1, the last byte — each read as a
single codepoint; exactly one space is re-prepended to the escaped
collapsed form when the first byte classifies as whitespace, and exactly
one space is re-appended when the byte length exceeds 1 and the last byte
classifies as whitespace. -/
theorem claim_C3_amended (s : String) (h : s ≠ "") :
    Text.render s =
      .ok ((if isSpace (Char.ofNat ((utf8Bytes s).headD 0)) then " " else "")
        ++ escapeString ⟨joinSpace (fieldsFunc s.data)⟩
        ++ (if decide ((utf8Bytes s).length > 1) &&
              isSpace (Char.ofNat ((utf8Bytes s).getLastD 0)) then " " else "")) :=
  textRender_eq s h

/-- C3, witness: `" a"` starts with an ASCII space, and one space is indeed
re-prepended to the collapsed form. -/
theorem claim_C3_amended_witness :
    (" a" : String) ≠ "" ∧ Text.render " a" = .ok " a" :=
  ⟨by decide, (claim_C3_amended " a" (by decide)).trans (by rfl)⟩

/-- C6: `Text.Render` never returns an error, and its result is always the
HTML-escaped collapsed form (whitespace runs collapsed by splitting on
whitespace and rejoining with a single space, i.e. trimmed) with at most
one boundary space restored per side; `Text(" hello  world ")` renders to
`" hello world "` and `Text("")` to `""` with no error. -/
theorem claim_C6_textRenderTotal :
    (∀ s : String, ∃ b1 b2 : Bool,
      Text.render s = .ok ((if b1 then " " else "")
        ++ escapeString ⟨joinSpace (fieldsFunc s.data)⟩
        ++ (if b2 then " " else "")))
    ∧ Text.render " hello  world " = .ok " hello world "
    ∧ Text.render "" = .ok "" := by
  refine ⟨fun s => ?_, by rfl, rfl⟩
  by_cases h : s = ""
  · subst h
    exact ⟨false, false, by rfl⟩
  · exact ⟨_, _, textRender_eq s h⟩

/-- C7, counterexample: an element with the void flag set but an EMPTY tag
name takes the transparent-wrapper branch of `Element.Render` first, so it
renders its children (here producing `"x"`), contradicting "never renders
children" for elements with the void flag. -/
theorem claim_C7_counterexample :
    Node.render (.elem "" true [] [.text "x"]) = .ok "x" := rfl

/-- C7, amended: for every element with a NON-EMPTY tag and the void flag,
`Render` emits only the opening tag (never a closing tag, never any child
output, whatever the children are), and `Add` on a void element is a no-op
that leaves the child list unchanged; a line-break element renders as
`<br>` even after children were appended. -/
theorem claim_C7_amended :
    (∀ (tag : String) (attrs : KV) (children : List Node), tag ≠ "" →
      Node.render (.elem tag true attrs children) =
        (renderAttrs attrs).map (fun a => "<" ++ tag ++ a ++ ">"))
    ∧ (∀ (tag : String) (attrs : KV) (children newChildren : List Node),
        Node.add (.elem tag true attrs children) newChildren =
          .elem tag true attrs children)
    ∧ Node.render (Node.add (.elem "br" true [] []) [.text "x"]) = .ok "<br>" := by
  refine ⟨?_, fun tag attrs children newChildren => rfl, by rfl⟩
  intro tag attrs children htag
  simp only [Node.render, if_neg htag]
  cases renderAttrs attrs <;> rfl

/-- C7, witness: the `<br>` element. -/
theorem claim_C7_amended_witness :
    ("br" : String) ≠ "" ∧ Node.render (.elem "br" true [] []) = .ok "<br>" :=
  ⟨by decide, (claim_C7_amended.1 "br" [] [] (by decide)).trans (by rfl)⟩

/-- C9: for the free `Render(writer, node)` entry point, a render failure
writes nothing to the sink (the sink state is returned untouched) and the
render error is propagated; a render success writes the full rendered
string to the sink in one call, and a sink write failure is returned to
the caller unchanged (injected as `Sum.inr`, never wrapped into a
`RenderError`). -/
theorem claim_C9_renderEntryPoint :
    (∀ (σ ε : Type) (write : σ → String → σ × Option ε) (st : σ) (node : Node)
        (e : RenderError), Node.render node = .error e →
        renderToWriter write st node = (st, some (Sum.inl e)))
    ∧ (∀ (σ ε : Type) (write : σ → String → σ × Option ε) (st : σ) (node : Node)
        (s : String), Node.render node = .ok s →
        renderToWriter write st node = ((write st s).1, (write st s).2.map Sum.inr)) := by
  constructor
  · intro σ ε write st node e h
    simp only [renderToWriter, h]
  · intro σ ε write st node s h
    simp only [renderToWriter, h]

/-- C9, witness: with a log-keeping sink, a failing node leaves the log
empty and surfaces its render error, while a succeeding text node writes
exactly its rendered string. -/
theorem claim_C9_witness :
    Node.render (.elem "div" false [("x", AttrValue.nil)] []) =
      .error (.nilAttributeValue "x")
    ∧ renderToWriter
        (fun (log : List String) (s : String) => (log ++ [s], (none : Option Unit)))
        [] (.elem "div" false [("x", AttrValue.nil)] [])
        = ([], some (Sum.inl (.nilAttributeValue "x")))
    ∧ Node.render (.text "hi") = .ok "hi"
    ∧ renderToWriter
        (fun (log : List String) (s : String) => (log ++ [s], (none : Option Unit)))
        [] (.text "hi") = (["hi"], none) := by
  refine ⟨rfl, ?_, rfl, ?_⟩
  · exact claim_C9_renderEntryPoint.1 _ _ _ _ _ _ rfl
  · exact (claim_C9_renderEntryPoint.2 _ _ _ _ (.text "hi") "hi" rfl).trans (by rfl)

/-- C4: `Render` output is deterministic and independent of the attribute
insertion order (for the pairwise-distinct keys of a map), the list the
attribute loop walks is in ascending key order, and a div with attributes
class="a", id="b" renders the same alphabetical output from either
insertion order. -/
theorem claim_C4_attrOrder :
    (∀ (tag : String) (isVoid : Bool) (l1 l2 : KV) (children : List Node),
        l1.Perm l2 → (List.map Prod.fst l1).Nodup →
        Node.render (.elem tag isVoid l1 children) =
          Node.render (.elem tag isVoid l2 children))
    ∧ (∀ l : KV, List.Pairwise (fun a b => strLe a.1 b.1 = true) (sortAttrs l))
    ∧ Node.render (.elem "div" false
        [("class", AttrValue.str "a"), ("id", AttrValue.str "b")] []) =
        .ok "<div class=\"a\" id=\"b\"></div>"
    ∧ Node.render (.elem "div" false
        [("id", AttrValue.str "b"), ("class", AttrValue.str "a")] []) =
        .ok "<div class=\"a\" id=\"b\"></div>" := by
  refine ⟨?_, sortAttrs_sorted, by rfl, by rfl⟩
  intro tag isVoid l1 l2 children hperm hnd
  have hsort : sortAttrs l1 = sortAttrs l2 :=
    sorted_eq_of_perm ((sortAttrs_perm l1).trans (hperm.trans (sortAttrs_perm l2).symm))
      (sortAttrs_sorted l1) (sortAttrs_sorted l2)
      (((sortAttrs_perm l1).map Prod.fst).nodup_iff.mpr hnd)
  have hra : renderAttrs l1 = renderAttrs l2 := by
    simp only [renderAttrs, hsort]
  simp only [Node.render, hra]

/-- C4, witness: the two insertion orders of {class:"a", id:"b"}. -/
theorem claim_C4_attrOrder_witness :
    ([("class", AttrValue.str "a"), ("id", AttrValue.str "b")] : KV).Perm
        [("id", AttrValue.str "b"), ("class", AttrValue.str "a")]
    ∧ (List.map Prod.fst
        ([("class", AttrValue.str "a"), ("id", AttrValue.str "b")] : KV)).Nodup
    ∧ Node.render (.elem "div" false
        [("class", AttrValue.str "a"), ("id", AttrValue.str "b")] []) =
        Node.render (.elem "div" false
          [("id", AttrValue.str "b"), ("class", AttrValue.str "a")] []) :=
  ⟨by decide, by decide,
    claim_C4_attrOrder.1 "div" false
      [("class", AttrValue.str "a"), ("id", AttrValue.str "b")]
      [("id", AttrValue.str "b"), ("class", AttrValue.str "a")] []
      (by decide) (by decide)⟩

/-- C5: per valid attribute (trimmed key non-empty): a false boolean is
omitted entirely, a true boolean emits the bare (trimmed) name, and a
string value always emits ` name="escaped"`, also when empty; with the
concrete examples {hidden:true, class:"x"} and an empty string value. -/
theorem claim_C5_attrValues :
    (∀ (k : String) (rest : KV), trimSpace k ≠ "" →
        renderAttrsLoop ((k, AttrValue.bool false) :: rest) = renderAttrsLoop rest)
    ∧ (∀ (k : String) (rest : KV), trimSpace k ≠ "" →
        renderAttrsLoop ((k, AttrValue.bool true) :: rest) =
          (renderAttrsLoop rest).map (fun r => " " ++ trimSpace k ++ r))
    ∧ (∀ (k v : String) (rest : KV), trimSpace k ≠ "" →
        renderAttrsLoop ((k, AttrValue.str v) :: rest) =
          (renderAttrsLoop rest).map
            (fun r => " " ++ trimSpace k ++ "=\"" ++ escapeString v ++ "\"" ++ r))
    ∧ Node.render (.elem "div" false
        [("hidden", AttrValue.bool true), ("class", AttrValue.str "x")] []) =
        .ok "<div class=\"x\" hidden></div>"
    ∧ Node.render (.elem "div" false [("value", AttrValue.str "")] []) =
        .ok "<div value=\"\"></div>" := by
  refine ⟨?_, ?_, ?_, by rfl, by rfl⟩
  · intro k rest h
    simp only [renderAttrsLoop, if_neg h]
    rcases hrest : renderAttrsLoop rest with e | val
    · rfl
    · simp [Except.map, empty_append_str]
  · intro k rest h
    simp only [renderAttrsLoop, if_neg h]
    rfl
  · intro k v rest h
    simp only [renderAttrsLoop, if_neg h]

/-- C5, witness: a lone string-valued attribute. -/
theorem claim_C5_attrValues_witness :
    trimSpace "class" ≠ ""
    ∧ renderAttrsLoop [("class", AttrValue.str "x")] = .ok " class=\"x\"" :=
  ⟨by decide, (claim_C5_attrValues.2.2.1 "class" "x" [] (by decide)).trans (by rfl)⟩

/-- If the attribute list contains `(k0, other t0)` with a valid key and
every OTHER entry wholly valid, the loop stops exactly at that entry with
`InvalidAttributeType`. -/
theorem renderAttrsLoop_uniqueBad {k0 t0 : String} : ∀ l : KV,
    (k0, AttrValue.other t0) ∈ l → trimSpace k0 ≠ "" →
    (∀ x ∈ l, x ≠ (k0, AttrValue.other t0) →
      trimSpace x.1 ≠ "" ∧ valueOk x.2 = true) →
    renderAttrsLoop l = .error (.invalidAttributeType t0 (trimSpace k0))
  | [], hmem, _, _ => absurd hmem (List.not_mem_nil _)
  | (k, v) :: t, hmem, hk0, hval => by
    by_cases he : (k, v) = (k0, AttrValue.other t0)
    · injection he with h1 h2
      subst h1; subst h2
      simp only [renderAttrsLoop, if_neg hk0]
    · have hx := hval (k, v) (List.mem_cons_self _ _) he
      have hmem' : (k0, AttrValue.other t0) ∈ t := by
        rcases List.mem_cons.mp hmem with h | h
        · exact absurd h.symm he
        · exact h
      have hrec := renderAttrsLoop_uniqueBad t hmem' hk0
        (fun x hx' hne => hval x (List.mem_cons_of_mem _ hx') hne)
      simp only [renderAttrsLoop, if_neg hx.1]
      cases v with
      | str s => rw [hrec]; rfl
      | bool b => rw [hrec]; rfl
      | nil => exact absurd hx.2 (by simp [valueOk])
      | other tn => exact absurd hx.2 (by simp [valueOk])

/-- C8, counterexample: the claim as stated quantifies over any element
holding a non-string/bool attribute value; but when another attribute with
an all-whitespace key sorts first, the render fails with
`EmptyAttributeKey`, not `InvalidAttributeType`. -/
theorem claim_C8_counterexample :
    Node.render (.elem "div" false
        [("b", AttrValue.other "int"), (" ", AttrValue.str "a")] []) =
      .error .emptyAttributeKey
    ∧ RenderError.isInvalidType .emptyAttributeKey = false :=
  ⟨rfl, rfl⟩

/-- C8, amended: for every element with a non-empty tag holding an
attribute whose value is neither string nor bool, with a valid key and all
OTHER attributes valid, `Render` fails with `InvalidAttributeType` (for
that type and trimmed key) and delivers no output (the Go pair is
`("", err)`, modelled by the `error` case). -/
theorem claim_C8_amended (tag : String) (isVoid : Bool) (attrs : KV)
    (children : List Node) (k0 t0 : String)
    (htag : tag ≠ "")
    (hmem : (k0, AttrValue.other t0) ∈ attrs)
    (hk0 : trimSpace k0 ≠ "")
    (hothers : ∀ x ∈ attrs, x ≠ (k0, AttrValue.other t0) →
      trimSpace x.1 ≠ "" ∧ valueOk x.2 = true) :
    Node.render (.elem tag isVoid attrs children) =
      .error (.invalidAttributeType t0 (trimSpace k0)) := by
  have hmem' : (k0, AttrValue.other t0) ∈ sortAttrs attrs :=
    ((sortAttrs_perm attrs).mem_iff).mpr hmem
  have hothers' : ∀ x ∈ sortAttrs attrs, x ≠ (k0, AttrValue.other t0) →
      trimSpace x.1 ≠ "" ∧ valueOk x.2 = true :=
    fun x hx => hothers x ((sortAttrs_perm attrs).mem_iff.mp hx)
  have hra : renderAttrs attrs = .error (.invalidAttributeType t0 (trimSpace k0)) :=
    renderAttrsLoop_uniqueBad _ hmem' hk0 hothers'
  simp only [Node.render, if_neg htag, hra]

/-- C8, witness: a div with a single integer-valued attribute. -/
theorem claim_C8_amended_witness :
    ("div" : String) ≠ ""
    ∧ (("b", AttrValue.other "int") ∈ ([("b", AttrValue.other "int")] : KV))
    ∧ trimSpace "b" ≠ ""
    ∧ Node.render (.elem "div" false [("b", AttrValue.other "int")] []) =
        .error (.invalidAttributeType "int" "b") := by
  refine ⟨by decide, by decide, by decide, ?_⟩
  exact (claim_C8_amended "div" false [("b", AttrValue.other "int")] [] "b" "int"
    (by decide) (by decide) (by decide) (by decide)).trans (by rfl)

/-- C10: a valid attribute key with surrounding whitespace renders as its
trimmed form — the emitted markup interpolates `trimSpace k`, never `k`. -/
theorem claim_C10_trimmedKey (k v : String) (hpad : k ≠ trimSpace k)
    (hk : trimSpace k ≠ "") :
    Node.render (.elem "div" false [(k, AttrValue.str v)] []) =
      .ok ("<div " ++ trimSpace k ++ "=\"" ++ escapeString v ++ "\"></div>") := by
  have hloop : renderAttrs [(k, AttrValue.str v)] =
      .ok (" " ++ trimSpace k ++ "=\"" ++ escapeString v ++ "\"" ++ "") := by
    show renderAttrsLoop [(k, AttrValue.str v)] = _
    simp only [renderAttrsLoop, if_neg hk]
    rfl
  have hstr : "<" ++ "div" ++ (" " ++ trimSpace k ++ "=\"" ++ escapeString v ++ "\"" ++ "")
      ++ ">" ++ "" ++ "</" ++ "div" ++ ">" =
      "<div " ++ trimSpace k ++ "=\"" ++ escapeString v ++ "\"></div>" := by
    apply String.ext
    simp only [String.data_append,
    show "<".data = ['<'] from rfl,
    show "div".data = ['d', 'i', 'v'] from rfl,
    show " ".data = [' '] from rfl,
    show "=\"".data = ['=', '"'] from rfl,
    show "\"".data = ['"'] from rfl,
    show ">".data = ['>'] from rfl,
    show "".data = ([] : List Char) from rfl,
    show "</".data = ['<', '/'] from rfl,
    show "<div ".data = ['<', 'd', 'i', 'v', ' '] from rfl,
    show "\"></div>".data = ['"', '>', '<', '/', 'd', 'i', 'v', '>'] from rfl]
    simp
  simp only [Node.render, hloop]
  show Except.ok ("<" ++ "div" ++ (" " ++ trimSpace k ++ "=\"" ++ escapeString v ++ "\"" ++ "")
      ++ ">" ++ "" ++ "</" ++ "div" ++ ">") = _
  exact congrArg Except.ok hstr

/-- C10, witness: the key `" class "` renders as `class`. -/
theorem claim_C10_trimmedKey_witness :
    (" class " : String) ≠ trimSpace " class "
    ∧ trimSpace " class " ≠ ""
    ∧ Node.render (.elem "div" false [(" class ", AttrValue.str "x")] []) =
        .ok "<div class=\"x\"></div>" := by
  refine ⟨by decide, by decide, ?_⟩
  exact (claim_C10_trimmedKey " class " "x" (by decide) (by decide)).trans (by rfl)

end G
